import Mathlib

/-!
Shallow embedding of the tether-artnet-controller real-time lighting
engine (src/model.rs, src/main.rs, src/ui/scenes.rs).

Conventions: Rust `f32` values are modelled as rationals (`Rat`),
`Duration` as whole milliseconds (`Nat`), `u8`/`u16` values as `Nat`
(the handled values stay far below any overflow except where noted),
`HashMap` iteration as association lists in a fixed order, and fallible
or panicking paths as `Option`.
-/

set_option linter.unusedVariables false

/-- ASCII lowercasing of one character, as Rust `u8::to_ascii_lowercase`. -/
def asciiLower (c : Char) : Char :=
  if 'A' ≤ c ∧ c ≤ 'Z' then Char.ofNat (c.toNat + 32) else c

/-- Rust `str::eq_ignore_ascii_case`, used for every label comparison in
model.rs. -/
def eqIgnoreAsciiCase (a b : String) : Bool :=
  a.data.map asciiLower == b.data.map asciiLower

/-- Modelled from the spec: the `Animation` tween primitive is defined in
src/animation.rs, which is not among the provided sources (model.rs only
constructs it and calls `get_value_and_done`). Spec §3/§4.1: it carries
start and end floats, a duration and the elapsed time, and a boxed easing
function (the code always passes `SineInOut`); the easing curve is kept
abstract here as a rational function. -/
structure Animation where
  durationMs : Nat
  elapsedMs : Nat
  startVal : Rat
  endVal : Rat
  easing : Rat → Rat

/-- Modelled from the spec: `Animation::new(duration, start, end, easing)`
(§4.1) starts with zero elapsed time. -/
def Animation.new (d : Nat) (s e : Rat) (ease : Rat → Rat) : Animation :=
  { durationMs := d, elapsedMs := 0, startVal := s, endVal := e, easing := ease }

/-- Modelled from the spec: §4.1 gives
`value = start + easing_fn(min(elapsed/duration, 1)) * (end - start)` and
`done` once `elapsed ≥ duration`; a zero duration is treated as already
done, immediately yielding `end`. -/
def Animation.getValueAndDone (a : Animation) : Rat × Bool :=
  if a.durationMs = 0 then (a.endVal, true)
  else
    (a.startVal + a.easing (min ((a.elapsedMs : Rat) / (a.durationMs : Rat)) 1)
        * (a.endVal - a.startVal),
     decide (a.durationMs ≤ a.elapsedMs))

/-- The cast `(value * 255.0) as u8` performed by `animate_macros`
(model.rs line 145): a Rust float-to-int `as` cast truncates toward zero
and saturates to `0..=255`; on nonnegative inputs truncation is the floor,
and `Int.toNat` sends every negative result to 0 exactly as the
saturating cast does. -/
def quantizeByte (v : Rat) : Nat :=
  min 255 (⌊v * 255⌋).toNat

/-- Stated from the spec's words, for comparison with `quantizeByte`:
"the byte written equals `round(v*255)`, clamped to `[0,255]`". -/
def specRoundByte (v : Rat) : Nat :=
  min 255 (round (v * 255)).toNat

/-- Modelled from the spec: the RGB triple held by a Colour macro
(project.rs is not among the provided sources). -/
structure RGB where
  red : Nat
  green : Nat
  blue : Nat
deriving DecidableEq

/-- Modelled from the spec: §3 Control Macro
`{label, current_value: u8, channels, animation: Option<Animation>}`
(project.rs is not among the provided sources; model.rs reads and writes
exactly these fields). -/
structure ControlMacro where
  label : String
  currentValue : Nat
  channels : List Nat
  animation : Option Animation

/-- Modelled from the spec: §3 Colour Macro `{label, current_value: RGB,
channels}`; no animation support. -/
structure ColourMacro where
  label : String
  currentValue : RGB
  channels : List Nat

/-- The tagged macro kind matched everywhere in model.rs
(`crate::project::FixtureMacro::Control` / `::Colour`). -/
inductive FixtureMacro where
  | Control (cm : ControlMacro)
  | Colour (cm : ColourMacro)

/-- Modelled from the spec: §3 Channel Mapping
`{channel: u16 (1-based), default: Option<u8>, home: Option<u8>}`. -/
structure Mapping where
  channel : Nat
  def_ : Option Nat
  home : Option Nat

/-- A fixture mode: its ordered channel mappings plus its macros
(model.rs iterates `mode.mappings` and `mode.macros`). -/
structure Mode where
  mappings : List Mapping
  macros : List FixtureMacro

/-- The slice of the fixture personality that model.rs uses:
`fixture.config.active_mode` (the full `modes` list is only read once at
startup for `channels_assigned`, which no claim touches). -/
structure FixtureConfig where
  activeMode : Mode

/-- Modelled from the spec: §3 Fixture Instance — label, channel offset
into the universe, and its configuration. -/
structure FixtureInstance where
  label : String
  offsetChannels : Nat
  config : FixtureConfig

/-- Modelled from the spec: a scene's target for one macro, either a
Control scalar or a Colour triple (`crate::project::SceneValue`). -/
inductive SceneValue where
  | ControlValue (v : Nat)
  | ColourValue (c : RGB)

/-- Modelled from the spec: §3 Scene — label plus a partial mapping from
fixture label to macro-label/target pairs. The `HashMap`s are modelled as
association lists iterated in a fixed order; `last_active` (a wall-clock
`SystemTime` written by `handle_scene_message`) is not modelled. -/
structure Scene where
  label : String
  state : List (String × List (String × SceneValue))

/-- The project data the engine mutates: fixtures and scenes. -/
structure Project where
  fixtures : List FixtureInstance
  scenes : List Scene

/-- The model state from model.rs that the claims are about. The receiver
handle, CLI settings, Art-Net socket, view mode and the startup-only
`channels_assigned` vector are omitted; the drained message list is
passed explicitly to the drain-loop model instead of through a channel. -/
structure Model where
  channelsState : List Nat
  project : Project
  applyMacros : Bool
  selectedMacroGroupIndex : Nat

def CHANNELS_PER_UNIVERSE : Nat := 512

/-- Payload of a direct macro-set message (tether_interface.rs is not
among the provided sources; shape per spec §6). -/
inductive RemoteMacroValue where
  | ControlValue (v : Nat)
  | ColourValue (c : RGB)

structure RemoteMacroMessage where
  fixtureLabel : Option String
  macroLabel : String
  value : RemoteMacroValue

structure RemoteAnimationMessage where
  fixtureLabel : Option String
  macroLabel : String
  targetValue : RemoteMacroValue
  duration : Nat

structure RemoteSceneMessage where
  sceneLabel : String
  ms : Option Nat
  fixtureFilters : Option (List String)

structure TetherNotePayload where
  note : Nat
  channel : Nat
  velocity : Nat

structure TetherControlChangePayload where
  channel : Nat
  controller : Nat
  value : Nat

inductive TetherMidiMessage where
  | Raw (payload : List Nat)
  | NoteOn (p : TetherNotePayload)
  | NoteOff (p : TetherNotePayload)
  | ControlChange (p : TetherControlChangePayload)

inductive RemoteControlMessage where
  | Midi (m : TetherMidiMessage)
  | MacroDirect (m : RemoteMacroMessage)
  | MacroAnimation (m : RemoteAnimationMessage)
  | SceneAnimation (m : RemoteSceneMessage)

/-- `get_target_fixtures_list` (model.rs lines 472-488): indices of the
fixtures whose label matches the optional case-insensitive search label
(no label means every fixture matches). -/
def getTargetFixturesList (fixtures : List FixtureInstance)
    (labelSearchString : Option String) : List Nat :=
  (fixtures.enum.filter (fun p =>
      match labelSearchString with
      | some label => eqIgnoreAsciiCase p.2.label label
      | none => true)).map Prod.fst

/-- `iter_mut().find(pred)` followed by a mutation of the found element:
rewrite the first element satisfying `p`, leave all others alone. -/
def updateFirst (p : α → Bool) (f : α → α) : List α → List α
  | [] => []
  | x :: xs => if p x then f x :: xs else x :: updateFirst p f xs

/-- The macro-label match used by `handle_macro_message` and
`handle_animation_message`. -/
def macroMatchesLabel (lbl : String) : FixtureMacro → Bool
  | .Control cm => eqIgnoreAsciiCase cm.label lbl
  | .Colour cm => eqIgnoreAsciiCase cm.label lbl

/-- Rewrite a fixture's active-mode macro list in place. -/
def updFixtureMacros (f : List FixtureMacro → List FixtureMacro)
    (fx : FixtureInstance) : FixtureInstance :=
  { fx with config := { fx.config with activeMode :=
      { fx.config.activeMode with macros := f fx.config.activeMode.macros } } }

/-- The per-macro body of `handle_macro_message` (model.rs lines 252-269):
a matching value kind assigns `current_value`; a mismatched kind only
logs an error and changes nothing. -/
def applyMacroDirect (v : RemoteMacroValue) : FixtureMacro → FixtureMacro
  | .Control cm =>
    match v with
    | .ControlValue cv => .Control { cm with currentValue := cv }
    | .ColourValue _ => .Control cm
  | .Colour cm =>
    match v with
    | .ColourValue cv => .Colour { cm with currentValue := cv }
    | .ControlValue _ => .Colour cm

/-- `handle_macro_message` (model.rs lines 232-273): on every targeted
fixture, the first macro whose label matches (case-insensitively) is
assigned directly. -/
def handleMacroMessage (m : Model) (msg : RemoteMacroMessage) : Model :=
  let targetFixtures := getTargetFixturesList m.project.fixtures msg.fixtureLabel
  let fixtures2 := m.project.fixtures.enum.map (fun p =>
    if targetFixtures.contains p.1 then
      updFixtureMacros
        (updateFirst (macroMatchesLabel msg.macroLabel) (applyMacroDirect msg.value))
        p.2
    else p.2)
  { m with project := { m.project with fixtures := fixtures2 } }

/-- The per-macro body of `handle_animation_message` (model.rs lines
300-330): a Control target with a Control value installs a fresh
animation from `current_value/255` to `target/255`; a Colour value or a
Colour macro only logs. -/
def applyAnimationDirect (ease : Rat → Rat) (msg : RemoteAnimationMessage) :
    FixtureMacro → FixtureMacro
  | .Control cm =>
    match msg.targetValue with
    | .ControlValue tv =>
        let anim := Animation.new msg.duration ((cm.currentValue : Rat) / 255)
          ((tv : Rat) / 255) ease
        .Control { cm with animation := some anim }
    | .ColourValue _ => .Control cm
  | .Colour cm => .Colour cm

/-- `handle_animation_message` (model.rs lines 275-334). The easing the
code always passes is `SineInOut`; it is abstracted as `ease`. -/
def handleAnimationMessage (ease : Rat → Rat) (m : Model)
    (msg : RemoteAnimationMessage) : Model :=
  let targetFixtures := getTargetFixturesList m.project.fixtures msg.fixtureLabel
  let fixtures2 := m.project.fixtures.enum.map (fun p =>
    if targetFixtures.contains p.1 then
      updFixtureMacros
        (updateFirst (macroMatchesLabel msg.macroLabel) (applyAnimationDirect ease msg))
        p.2
    else p.2)
  { m with project := { m.project with fixtures := fixtures2 } }

/-- The per-macro body of `animate_macros` (model.rs lines 142-158): if a
Control macro has an animation, write the quantized value, then — only
after applying the value — drop the animation when it reports done. -/
def animateControlMacro (cm : ControlMacro) : ControlMacro :=
  match cm.animation with
  | some a =>
      let vd := a.getValueAndDone
      let cm2 := { cm with currentValue := quantizeByte vd.1 }
      if vd.2 then { cm2 with animation := none } else cm2
  | none => cm

def animateFixtureMacro : FixtureMacro → FixtureMacro
  | .Control cm => .Control (animateControlMacro cm)
  | .Colour cm => .Colour cm

/-- `animate_macros` (model.rs lines 138-161). -/
def animateMacros (m : Model) : Model :=
  let fixtures2 := m.project.fixtures.map (updFixtureMacros (List.map animateFixtureMacro))
  { m with project := { m.project with fixtures := fixtures2 } }

/-- The per-entry fixture-match test of `apply_scene` (model.rs lines
367-372): with filters present, the scene key must be contained in the
filter list (exact, case-sensitive `Vec::contains`) AND match the
fixture's label case-insensitively; without filters only the label match
is required. -/
def isTargetFixture (fixtureFilters : Option (List String))
    (fixtureLabel fixtureLabelInScene : String) : Bool :=
  match fixtureFilters with
  | some filters =>
      filters.contains fixtureLabelInScene
        && eqIgnoreAsciiCase fixtureLabelInScene fixtureLabel
  | none => eqIgnoreAsciiCase fixtureLabelInScene fixtureLabel

/-- The per-macro body of `apply_scene` (model.rs lines 378-443) for one
scene entry: a Control macro whose label has a Control target in the
entry either gets a fresh animation (`Some(ms)`) or is assigned directly
(`None`); a Colour macro with a Colour target is assigned directly;
mismatched kinds and absent labels only log and change nothing. The
scene's per-fixture `HashMap::get` is an exact (case-sensitive) lookup. -/
def applySceneEntryToMacro (ease : Rat → Rat) (animationMs : Option Nat)
    (fixtureStateInScene : List (String × SceneValue)) :
    FixtureMacro → FixtureMacro
  | .Control cm =>
    match fixtureStateInScene.lookup cm.label with
    | some (.ControlValue sv) =>
      match animationMs with
      | some ms =>
          let anim := Animation.new ms ((cm.currentValue : Rat) / 255)
            ((sv : Rat) / 255) ease
          .Control { cm with animation := some anim }
      | none => .Control { cm with currentValue := sv }
    | some (.ColourValue _) => .Control cm
    | none => .Control cm
  | .Colour cm =>
    match fixtureStateInScene.lookup cm.label with
    | some (.ColourValue sv) => .Colour { cm with currentValue := sv }
    | some (.ControlValue _) => .Colour cm
    | none => .Colour cm

/-- The inner loop of `apply_scene` for one fixture: every scene entry is
visited in order, and each matching entry rewrites every macro of the
fixture via `applySceneEntryToMacro`. -/
def applySceneToFixture (ease : Rat → Rat) (animationMs : Option Nat)
    (fixtureFilters : Option (List String)) (scene : Scene)
    (fx : FixtureInstance) : FixtureInstance :=
  scene.state.foldl (fun fx entry =>
    if isTargetFixture fixtureFilters fx.label entry.1 then
      updFixtureMacros (List.map (applySceneEntryToMacro ease animationMs entry.2)) fx
    else fx) fx

/-- `apply_scene` (model.rs lines 353-454): an out-of-range scene index
only logs an error and returns with nothing changed; otherwise every
fixture is visited against every scene entry and the `apply_macros` flag
is raised. -/
def applyScene (ease : Rat → Rat) (m : Model) (sceneIndex : Nat)
    (animationMs : Option Nat) (fixtureFilters : Option (List String)) : Model :=
  match m.project.scenes[sceneIndex]? with
  | some scene =>
      let fixtures2 := m.project.fixtures.map
        (applySceneToFixture ease animationMs fixtureFilters scene)
      { m with project := { m.project with fixtures := fixtures2 },
               applyMacros := true }
  | none => m

/-- `handle_scene_message` (model.rs lines 336-351): find the scene by
case-insensitive label and apply it; a missing label only logs. (The
`last_active` timestamp write is not modelled; see `Scene`.) -/
def handleSceneMessage (ease : Rat → Rat) (m : Model)
    (msg : RemoteSceneMessage) : Model :=
  match m.project.scenes.enum.find?
      (fun p => eqIgnoreAsciiCase p.2.label msg.sceneLabel) with
  | some p => applyScene ease m p.1 msg.ms msg.fixtureFilters
  | none => m

/-- `handle_midi_message` (model.rs lines 163-230), with `none` marking a
panic: `Raw`, `NoteOff` and `ControlChange` hit `todo!()` and panic
unconditionally; `NoteOn` computes `note - 48` in `u8`, which underflows
for note < 48 (a panic under Rust's debug assertions), and otherwise
stores the group index. -/
def handleMidiMessage (m : Model) (msg : TetherMidiMessage) : Option Model :=
  match msg with
  | .Raw _ => none
  | .NoteOn p =>
      if p.note < 48 then none
      else some { m with selectedMacroGroupIndex := p.note - 48 }
  | .NoteOff _ => none
  | .ControlChange _ => none

/-- The dispatch arm of `Model::update` (model.rs lines 94-107) for one
drained message; `none` marks a panic. -/
def handleMessage (ease : Rat → Rat) (m : Model) :
    RemoteControlMessage → Option Model
  | .Midi midiMsg => handleMidiMessage m midiMsg
  | .MacroDirect macroMsg => some (handleMacroMessage m macroMsg)
  | .MacroAnimation animationMsg => some (handleAnimationMessage ease m animationMsg)
  | .SceneAnimation sceneMsg => some (handleSceneMessage ease m sceneMsg)

/-- The message-drain loop of `Model::update` (model.rs lines 91-108):
each drained message first raises `apply_macros`, then is dispatched;
`none` marks a panic while handling some message. -/
def updateDrain (ease : Rat → Rat) (m : Model) :
    List RemoteControlMessage → Option Model
  | [] => some m
  | msg :: rest =>
      match handleMessage ease { m with applyMacros := true } msg with
      | some m2 => updateDrain ease m2 rest
      | none => none

/-- The universe index written for one mapping:
`mapping.channel + fixture.offset_channels - 1` (u16 arithmetic; the
claims' hypotheses keep `channel + offset ≥ 1` so the truncated `Nat`
subtraction agrees with Rust). -/
def homeWriteIndex (fx : FixtureInstance) (mp : Mapping) : Nat :=
  mp.channel + fx.offsetChannels - 1

/-- `apply_home_values` (model.rs lines 456-469): re-initialize all 512
channels to zero, then write every mapping's `home` value (when present)
at its universe index. Rust's vector indexing panics out of range where
`List.set` is a no-op; the claims' hypotheses keep every index in
bounds. -/
def applyHomeValues (m : Model) : Model :=
  let st0 : List Nat := List.replicate CHANNELS_PER_UNIVERSE 0
  let st2 := m.project.fixtures.foldl (fun st fx =>
    fx.config.activeMode.mappings.foldl (fun st mp =>
      match mp.home with
      | some h => st.set (homeWriteIndex fx mp) h
      | none => st) st) st0
  { m with channelsState := st2 }

/-! ### Observation helpers and generic list lemmas -/

/-- The animation slot of a macro (Colour macros have none). -/
def macroAnimation : FixtureMacro → Option Animation
  | .Control cm => cm.animation
  | .Colour _ => none

/-- All animation slots of one fixture, in macro order. -/
def animationsOfFixture (fx : FixtureInstance) : List (Option Animation) :=
  fx.config.activeMode.macros.map macroAnimation

/-- All animation slots of the whole model, fixture by fixture. -/
def animationsOf (m : Model) : List (List (Option Animation)) :=
  m.project.fixtures.map animationsOfFixture

/-- The first macro of the first fixture, when it is a Control macro:
the probe used by the concrete examples below. -/
def firstControlMacro (m : Model) : Option ControlMacro :=
  match m.project.fixtures with
  | fx :: _ =>
    match fx.config.activeMode.macros with
    | .Control cm :: _ => some cm
    | _ => none
  | _ => none

theorem foldl_invariant {α β γ : Type _} (g : α → β) (step : α → γ → α)
    (h : ∀ a c, g (step a c) = g a) :
    ∀ (l : List γ) (a : α), g (l.foldl step a) = g a := by
  intro l
  induction l with
  | nil => intro a; rfl
  | cons c cs ih => intro a; rw [List.foldl_cons, ih, h]

theorem foldl_fixed {α γ : Type _} (step : α → γ → α) (a : α)
    (l : List γ) (h : ∀ c ∈ l, step a c = a) : l.foldl step a = a := by
  induction l with
  | nil => rfl
  | cons c cs ih =>
      rw [List.foldl_cons, h c (List.mem_cons_self c cs)]
      exact ih (fun c hc => h c (List.mem_cons_of_mem _ hc))

theorem updateFirst_map_invariant {α β : Type _} (p : α → Bool) (f : α → α)
    (g : α → β) (h : ∀ x, g (f x) = g x) :
    ∀ l : List α, (updateFirst p f l).map g = l.map g := by
  intro l
  induction l with
  | nil => rfl
  | cons x xs ih =>
      by_cases hp : p x
      · simp [updateFirst, hp, h]
      · simp [updateFirst, hp, ih]

theorem enumFrom_map_invariant {α β : Type _} (F : Nat × α → α) (g : α → β)
    (h : ∀ i x, g (F (i, x)) = g x) :
    ∀ (l : List α) (n : Nat), ((l.enumFrom n).map F).map g = l.map g := by
  intro l
  induction l with
  | nil => intro n; rfl
  | cons x xs ih =>
      intro n
      simp only [List.enumFrom, List.map_cons, h, ih]

theorem enum_map_invariant {α β : Type _} (F : Nat × α → α) (g : α → β)
    (h : ∀ i x, g (F (i, x)) = g x) (l : List α) :
    ((l.enum.map F)).map g = l.map g :=
  enumFrom_map_invariant F g h l 0

/-! ### Concrete example data -/

/-- An in-flight animation pinned at value 1/2: start and end are both
1/2, so the eased value is exactly 1/2 whatever the easing curve does,
and at 500 of 1000 ms it is not yet done. -/
def exAnimHalf : Animation :=
  { durationMs := 1000, elapsedMs := 500, startVal := 1/2, endVal := 1/2, easing := id }

def exCM : ControlMacro :=
  { label := "Dim", currentValue := 10, channels := [1], animation := some exAnimHalf }

def exFx : FixtureInstance :=
  { label := "A", offsetChannels := 0,
    config := { activeMode :=
      { mappings := [{ channel := 1, def_ := none, home := some 255 }],
        macros := [.Control exCM] } } }

def exScene : Scene :=
  { label := "S", state := [("A", [("Dim", .ControlValue 200)])] }

def exModel : Model :=
  { channelsState := [], project := { fixtures := [exFx], scenes := [exScene] },
    applyMacros := false, selectedMacroGroupIndex := 0 }

def exMsgSet : RemoteMacroMessage :=
  { fixtureLabel := none, macroLabel := "dim", value := .ControlValue 200 }

/-! ### C4 — out-of-range scene recall is a complete no-op -/

/-- C4: for every scene_index out of range of the scene store,
`apply_scene` only reports the error and changes nothing: the whole model
— every fixture's macro current_values and animations and the
`apply_macros` flag included — is returned unchanged. -/
theorem c4_applyScene_out_of_range_noop (ease : Rat → Rat) (m : Model)
    (sceneIndex : Nat) (animationMs : Option Nat)
    (fixtureFilters : Option (List String))
    (h : m.project.scenes.length ≤ sceneIndex) :
    applyScene ease m sceneIndex animationMs fixtureFilters = m := by
  unfold applyScene
  rw [List.getElem?_eq_none h]

theorem c4_witness :
    exModel.project.scenes.length ≤ 5 ∧ applyScene id exModel 5 none none = exModel :=
  ⟨by decide, c4_applyScene_out_of_range_noop id exModel 5 none none (by decide)⟩

/-! ### C1 — direct value assignment and in-flight animations -/

theorem macroAnimation_applyMacroDirect (v : RemoteMacroValue) (x : FixtureMacro) :
    macroAnimation (applyMacroDirect v x) = macroAnimation x := by
  cases x <;> cases v <;> rfl

theorem macroAnimation_applySceneEntry_none (ease : Rat → Rat)
    (st : List (String × SceneValue)) (x : FixtureMacro) :
    macroAnimation (applySceneEntryToMacro ease none st x) = macroAnimation x := by
  cases x with
  | Control cm =>
      simp only [applySceneEntryToMacro]
      cases hl : st.lookup cm.label with
      | none => rfl
      | some sv => cases sv <;> rfl
  | Colour cm =>
      simp only [applySceneEntryToMacro]
      cases hl : st.lookup cm.label with
      | none => rfl
      | some sv => cases sv <;> rfl

theorem animationsOf_handleMacroMessage (m : Model) (msg : RemoteMacroMessage) :
    animationsOf (handleMacroMessage m msg) = animationsOf m := by
  unfold handleMacroMessage animationsOf
  simp only []
  apply enum_map_invariant
  intro i fx
  split
  · show ((updateFirst _ _ fx.config.activeMode.macros).map macroAnimation) = _
    rw [updateFirst_map_invariant _ _ _ (macroAnimation_applyMacroDirect msg.value)]
    rfl
  · rfl

theorem animationsOfFixture_applySceneToFixture_none (ease : Rat → Rat)
    (fixtureFilters : Option (List String)) (scene : Scene) (fx : FixtureInstance) :
    animationsOfFixture (applySceneToFixture ease none fixtureFilters scene fx)
      = animationsOfFixture fx := by
  unfold applySceneToFixture
  apply foldl_invariant
  intro a entry
  split
  · show ((a.config.activeMode.macros.map _).map macroAnimation) = _
    rw [List.map_map]
    exact List.map_congr_left (fun x _ => macroAnimation_applySceneEntry_none ease entry.2 x)
  · rfl

theorem animationsOf_applyScene_none (ease : Rat → Rat) (m : Model) (i : Nat)
    (fixtureFilters : Option (List String)) :
    animationsOf (applyScene ease m i none fixtureFilters) = animationsOf m := by
  unfold applyScene
  cases h : m.project.scenes[i]? with
  | none => rfl
  | some scene =>
      show (m.project.fixtures.map _).map animationsOfFixture = _
      rw [List.map_map]
      exact List.map_congr_left
        (fun fx _ => animationsOfFixture_applySceneToFixture_none ease fixtureFilters scene fx)

/-- C1 counterexample: on a macro carrying an in-flight animation, both a
direct macro-set message and a no-animation scene recall set
current_value to the target (200) — yet the animation slot is still
occupied afterwards (`isSome = true`), so neither path clears (sets to
None) the in-flight Animation as the claim states. -/
theorem c1_counterexample :
    (firstControlMacro (handleMacroMessage exModel exMsgSet)).map
        (fun cm => (cm.currentValue, cm.animation.isSome)) = some (200, true) ∧
    (firstControlMacro (applyScene id exModel 0 none none)).map
        (fun cm => (cm.currentValue, cm.animation.isSome)) = some (200, true) :=
  ⟨rfl, rfl⟩

/-- C1 amended: a direct value assignment — a macro-set message handled
by handle_macro_message, or a scene recall via apply_scene with animation
duration None — sets the targeted Control macro's current_value to the
supplied target but leaves every animation slot of the model exactly as
it was: no in-flight Animation is cleared. -/
theorem c1_direct_set_leaves_animation :
    (∀ (m : Model) (msg : RemoteMacroMessage),
       animationsOf (handleMacroMessage m msg) = animationsOf m) ∧
    (∀ (ease : Rat → Rat) (m : Model) (sceneIndex : Nat)
       (fixtureFilters : Option (List String)),
       animationsOf (applyScene ease m sceneIndex none fixtureFilters) = animationsOf m) ∧
    (∀ (v : Nat) (cm : ControlMacro),
       applyMacroDirect (.ControlValue v) (.Control cm)
         = .Control { cm with currentValue := v }) ∧
    (∀ (ease : Rat → Rat) (st : List (String × SceneValue)) (cm : ControlMacro) (sv : Nat),
       st.lookup cm.label = some (.ControlValue sv) →
       applySceneEntryToMacro ease none st (.Control cm)
         = .Control { cm with currentValue := sv }) := by
  refine ⟨animationsOf_handleMacroMessage, animationsOf_applyScene_none, ?_, ?_⟩
  · intro v cm; rfl
  · intro ease st cm sv h
    simp only [applySceneEntryToMacro, h]

theorem c1_witness :
    animationsOf (handleMacroMessage exModel exMsgSet) = animationsOf exModel ∧
    List.lookup exCM.label [("Dim", SceneValue.ControlValue 200)]
      = some (SceneValue.ControlValue 200) ∧
    applySceneEntryToMacro id none [("Dim", SceneValue.ControlValue 200)] (.Control exCM)
      = .Control { exCM with currentValue := 200 } :=
  ⟨c1_direct_set_leaves_animation.1 exModel exMsgSet, rfl,
   c1_direct_set_leaves_animation.2.2.2 id [("Dim", SceneValue.ControlValue 200)] exCM 200 rfl⟩

/-! ### C2 — quantization of eased animation values -/

theorem animateControlMacro_eq (cm : ControlMacro) (a : Animation)
    (h : cm.animation = some a) :
    animateControlMacro cm
      = { cm with currentValue := quantizeByte a.getValueAndDone.1,
                  animation := if a.getValueAndDone.2 then none else cm.animation } := by
  unfold animateControlMacro
  rw [h]
  cases hd : a.getValueAndDone.2 <;> simp [hd]

theorem quantizeByte_eq_floor (v : Rat) (h0 : 0 ≤ v) (h1 : v ≤ 1) :
    quantizeByte v = (⌊v * 255⌋).toNat := by
  have hle : v * 255 ≤ 255 := by
    have := mul_le_mul_of_nonneg_right h1 (show (0:Rat) ≤ 255 by norm_num)
    linarith
  have hfl : ⌊v * 255⌋ ≤ (255 : ℤ) := by
    have := Int.floor_mono hle
    simpa using this
  have h2 : (⌊v * 255⌋).toNat ≤ 255 := by omega
  unfold quantizeByte
  omega

theorem animateMacros_at (m : Model) (i j : Nat) (fx : FixtureInstance)
    (cm : ControlMacro)
    (h1 : m.project.fixtures[i]? = some fx)
    (h2 : fx.config.activeMode.macros[j]? = some (.Control cm)) :
    ((animateMacros m).project.fixtures[i]?).map
        (fun fx2 => fx2.config.activeMode.macros[j]?)
      = some (some (.Control (animateControlMacro cm))) := by
  unfold animateMacros
  simp only [List.getElem?_map, h1, Option.map_some']
  show some ((fx.config.activeMode.macros.map animateFixtureMacro)[j]?) = _
  simp only [List.getElem?_map, h2, Option.map_some']
  rfl

theorem exAnimHalf_value : exAnimHalf.getValueAndDone = (1/2, false) := by
  unfold exAnimHalf Animation.getValueAndDone
  norm_num

theorem quantizeByte_half : quantizeByte (1/2 : Rat) = 127 := by
  unfold quantizeByte
  norm_num [Int.floor_eq_iff]
  rfl

/-- C2 counterexample: a macro with an in-flight animation whose eased
value is exactly 1/2 gets current_value 127 on the animation tick, while
`round(0.5 * 255) = 128`: the byte written is the truncation, not the
round, of `v*255`. -/
theorem c2_counterexample :
    exAnimHalf.getValueAndDone.1 = 1/2 ∧
    (firstControlMacro (animateMacros exModel)).map (fun cm => cm.currentValue)
      = some 127 ∧
    specRoundByte (1/2) = 128 := by
  refine ⟨by rw [exAnimHalf_value], ?_, ?_⟩
  · show some (animateControlMacro exCM).currentValue = some 127
    rw [animateControlMacro_eq exCM exAnimHalf rfl]
    simp only [exAnimHalf_value, quantizeByte_half]
  · unfold specRoundByte
    rw [round_eq]
    norm_num [Int.floor_eq_iff]
    rfl

/-- C2 amended: on every animation tick, for every Control macro with an
active Animation yielding eased float value v, the byte stored in
current_value is `quantizeByte v` — the saturating truncation of
`v * 255` (the Rust `as u8` cast) — which for v ∈ [0,1] is
`⌊v * 255⌋`, not `round(v * 255)`. The done flag is
consumed only after the value is written. -/
theorem c2_quantization_truncates :
    (∀ (m : Model) (i j : Nat) (fx : FixtureInstance) (cm : ControlMacro) (a : Animation),
       m.project.fixtures[i]? = some fx →
       fx.config.activeMode.macros[j]? = some (.Control cm) →
       cm.animation = some a →
       ((animateMacros m).project.fixtures[i]?).map
           (fun fx2 => fx2.config.activeMode.macros[j]?)
         = some (some (.Control
             { cm with currentValue := quantizeByte a.getValueAndDone.1,
                       animation := if a.getValueAndDone.2 then none else cm.animation }))) ∧
    (∀ v : Rat, 0 ≤ v → v ≤ 1 → quantizeByte v = (⌊v * 255⌋).toNat) := by
  constructor
  · intro m i j fx cm a h1 h2 h3
    rw [animateMacros_at m i j fx cm h1 h2, animateControlMacro_eq cm a h3]
  · exact quantizeByte_eq_floor

theorem c2_witness :
    ((animateMacros exModel).project.fixtures[0]?).map
        (fun fx2 => fx2.config.activeMode.macros[0]?)
      = some (some (.Control
          { exCM with currentValue := quantizeByte exAnimHalf.getValueAndDone.1,
                      animation := if exAnimHalf.getValueAndDone.2 then none
                                   else exCM.animation })) ∧
    quantizeByte (1/2 : Rat) = (⌊(1/2 : Rat) * 255⌋).toNat :=
  ⟨c2_quantization_truncates.1 exModel 0 0 exFx exCM exAnimHalf rfl rfl rfl,
   c2_quantization_truncates.2 (1/2) (by norm_num) (by norm_num)⟩

/-! ### C5 — terminal value is applied before the animation is discarded -/

/-- A finished animation: elapsed has reached duration, value 0 → 1. -/
def exAnimDone : Animation :=
  { durationMs := 1000, elapsedMs := 1000, startVal := 0, endVal := 1, easing := id }

def exCMDone : ControlMacro :=
  { label := "Dim", currentValue := 10, channels := [1], animation := some exAnimDone }

def exFxDone : FixtureInstance :=
  { label := "A", offsetChannels := 0,
    config := { activeMode := { mappings := [], macros := [.Control exCMDone] } } }

def exModelDone : Model :=
  { channelsState := [], project := { fixtures := [exFxDone], scenes := [] },
    applyMacros := true, selectedMacroGroupIndex := 0 }

/-- C5: on the tick where a Control macro's Animation reports done, the
macro ends the tick holding the quantized terminal eased value with its
animation slot cleared — and, in full generality, whenever
`animate_macros` discards an animation the terminal value has been
written into current_value on that same tick. -/
theorem c5_terminal_value_then_discard :
    (∀ (m : Model) (i j : Nat) (fx : FixtureInstance) (cm : ControlMacro) (a : Animation),
       m.project.fixtures[i]? = some fx →
       fx.config.activeMode.macros[j]? = some (.Control cm) →
       cm.animation = some a →
       a.getValueAndDone.2 = true →
       ((animateMacros m).project.fixtures[i]?).map
           (fun fx2 => fx2.config.activeMode.macros[j]?)
         = some (some (.Control
             { cm with currentValue := quantizeByte a.getValueAndDone.1,
                       animation := none }))) ∧
    (∀ (cm : ControlMacro) (a : Animation), cm.animation = some a →
       (animateControlMacro cm).animation = none →
       (animateControlMacro cm).currentValue = quantizeByte a.getValueAndDone.1) := by
  constructor
  · intro m i j fx cm a h1 h2 h3 h4
    rw [animateMacros_at m i j fx cm h1 h2, animateControlMacro_eq cm a h3]
    simp [h4]
  · intro cm a h3 _
    rw [animateControlMacro_eq cm a h3]

theorem c5_witness :
    ((animateMacros exModelDone).project.fixtures[0]?).map
        (fun fx2 => fx2.config.activeMode.macros[0]?)
      = some (some (.Control
          { exCMDone with currentValue := quantizeByte exAnimDone.getValueAndDone.1,
                          animation := none })) :=
  c5_terminal_value_then_discard.1 exModelDone 0 0 exFxDone exCMDone exAnimDone
    rfl rfl rfl rfl

/-! ### C7 — kind mismatches are logged no-ops -/

def exKM : ColourMacro :=
  { label := "Col", currentValue := { red := 0, green := 0, blue := 0 }, channels := [2, 3, 4] }

/-- C7: wherever a supplied value kind does not match the target macro's
kind — a Colour value for a Control macro or a Control value for a Colour
macro, whether it arrives in a direct macro-set message or as a scene
entry — the handler leaves the macro (current_value and animation
included) exactly unchanged. -/
theorem c7_kind_mismatch_noop :
    (∀ (c : RGB) (cm : ControlMacro),
       applyMacroDirect (.ColourValue c) (.Control cm) = .Control cm) ∧
    (∀ (v : Nat) (cm : ColourMacro),
       applyMacroDirect (.ControlValue v) (.Colour cm) = .Colour cm) ∧
    (∀ (ease : Rat → Rat) (ms : Option Nat) (st : List (String × SceneValue))
       (cm : ControlMacro) (c : RGB),
       st.lookup cm.label = some (.ColourValue c) →
       applySceneEntryToMacro ease ms st (.Control cm) = .Control cm) ∧
    (∀ (ease : Rat → Rat) (ms : Option Nat) (st : List (String × SceneValue))
       (cm : ColourMacro) (v : Nat),
       st.lookup cm.label = some (.ControlValue v) →
       applySceneEntryToMacro ease ms st (.Colour cm) = .Colour cm) := by
  refine ⟨fun c cm => rfl, fun v cm => rfl, ?_, ?_⟩
  · intro ease ms st cm c h
    simp only [applySceneEntryToMacro, h]
  · intro ease ms st cm v h
    simp only [applySceneEntryToMacro, h]

theorem c7_witness :
    applyMacroDirect (.ColourValue { red := 9, green := 9, blue := 9 }) (.Control exCM)
      = .Control exCM ∧
    applySceneEntryToMacro id none [("Dim", SceneValue.ColourValue { red := 1, green := 2, blue := 3 })]
        (.Control exCM) = .Control exCM ∧
    applySceneEntryToMacro id (some 250) [("Col", SceneValue.ControlValue 40)]
        (.Colour exKM) = .Colour exKM :=
  ⟨c7_kind_mismatch_noop.1 { red := 9, green := 9, blue := 9 } exCM,
   c7_kind_mismatch_noop.2.2.1 id none [("Dim", SceneValue.ColourValue { red := 1, green := 2, blue := 3 })]
     exCM { red := 1, green := 2, blue := 3 } rfl,
   c7_kind_mismatch_noop.2.2.2 id (some 250) [("Col", SceneValue.ControlValue 40)] exKM 40 rfl⟩

/-! ### C3 — which inbound messages are dispatched without panicking -/

/-- The messages the dispatcher survives: every non-MIDI message, and a
MIDI Note-On whose note is at least 48. `Raw`, `NoteOff` and
`ControlChange` reach `todo!()`, and a Note-On below 48 underflows the
`u8` subtraction `note - 48`. -/
def survivesDispatch : RemoteControlMessage → Bool
  | .Midi (.NoteOn p) => decide (48 ≤ p.note)
  | .Midi _ => false
  | _ => true

theorem handleMessage_isSome (ease : Rat → Rat) (m : Model)
    (msg : RemoteControlMessage) (h : survivesDispatch msg = true) :
    (handleMessage ease m msg).isSome = true := by
  cases msg with
  | Midi mm =>
      cases mm with
      | Raw pl => exact absurd h (by simp [survivesDispatch])
      | NoteOn p =>
          have hn : 48 ≤ p.note := by simpa [survivesDispatch] using h
          simp [handleMessage, handleMidiMessage, Nat.not_lt_of_le hn]
      | NoteOff p => exact absurd h (by simp [survivesDispatch])
      | ControlChange cc => exact absurd h (by simp [survivesDispatch])
  | MacroDirect mm => rfl
  | MacroAnimation mm => rfl
  | SceneAnimation mm => rfl

/-- C3 counterexample: a drained `NoteOff` message (likewise `Raw` and
`ControlChange`, and a `NoteOn` with note 47 < 48) makes the dispatcher
panic — modelled as `none` — refuting "processing any inbound Remote
Control Message never panics". -/
theorem c3_counterexample :
    updateDrain id exModel
        [.Midi (.NoteOff { note := 60, channel := 0, velocity := 0 })] = none ∧
    updateDrain id exModel [.Midi (.Raw [1, 2, 3])] = none ∧
    updateDrain id exModel
        [.Midi (.ControlChange { channel := 0, controller := 48, value := 10 })] = none ∧
    updateDrain id exModel
        [.Midi (.NoteOn { note := 47, channel := 0, velocity := 0 })] = none :=
  ⟨rfl, rfl, rfl, rfl⟩

/-- C3 amended: the dispatcher of `Model::update` survives — processes
without panicking — every drained sequence of direct macro-set,
macro-animation and scene-recall messages and MIDI Note-On messages with
note ≥ 48; the remaining MIDI paths (`Raw`, `NoteOff`, `ControlChange`)
hit `todo!()` and panic, and Note-On below 48 underflows `note - 48`. -/
theorem c3_dispatch_survives (ease : Rat → Rat) (msgs : List RemoteControlMessage)
    (h : ∀ msg ∈ msgs, survivesDispatch msg = true) :
    ∀ m : Model, (updateDrain ease m msgs).isSome = true := by
  induction msgs with
  | nil => intro m; rfl
  | cons msg rest ih =>
      intro m
      unfold updateDrain
      cases hm : handleMessage ease { m with applyMacros := true } msg with
      | none =>
          have := handleMessage_isSome ease { m with applyMacros := true } msg
            (h msg (List.mem_cons_self msg rest))
          rw [hm] at this
          exact absurd this (by simp)
      | some m2 =>
          exact ih (fun msg' hmem => h msg' (List.mem_cons_of_mem _ hmem)) m2

theorem c3_witness :
    (∀ msg ∈ [RemoteControlMessage.Midi (.NoteOn { note := 50, channel := 0, velocity := 9 }),
              RemoteControlMessage.MacroDirect exMsgSet,
              RemoteControlMessage.MacroAnimation
                { fixtureLabel := some "a", macroLabel := "Dim",
                  targetValue := .ControlValue 255, duration := 2000 },
              RemoteControlMessage.SceneAnimation
                { sceneLabel := "s", ms := none, fixtureFilters := none }],
        survivesDispatch msg = true) ∧
    (updateDrain id exModel
        [RemoteControlMessage.Midi (.NoteOn { note := 50, channel := 0, velocity := 9 }),
         RemoteControlMessage.MacroDirect exMsgSet,
         RemoteControlMessage.MacroAnimation
           { fixtureLabel := some "a", macroLabel := "Dim",
             targetValue := .ControlValue 255, duration := 2000 },
         RemoteControlMessage.SceneAnimation
           { sceneLabel := "s", ms := none, fixtureFilters := none }]).isSome = true :=
  ⟨by decide, c3_dispatch_survives id _ (by decide) exModel⟩

/-! ### C6 / C8 — scene recall touches only matching, filtered fixtures -/

theorem applySceneToFixture_no_match (ease : Rat → Rat) (ms : Option Nat)
    (fixtureFilters : Option (List String)) (scene : Scene) (fx : FixtureInstance)
    (h : ∀ entry ∈ scene.state, isTargetFixture fixtureFilters fx.label entry.1 = false) :
    applySceneToFixture ease ms fixtureFilters scene fx = fx := by
  unfold applySceneToFixture
  apply foldl_fixed
  intro entry hmem
  rw [h entry hmem]
  simp

theorem applyScene_preserves_fixture (ease : Rat → Rat) (m : Model)
    (sceneIndex : Nat) (ms : Option Nat) (fixtureFilters : Option (List String))
    (k : Nat) (fx : FixtureInstance) (scene : Scene)
    (hscene : m.project.scenes[sceneIndex]? = some scene)
    (hfx : m.project.fixtures[k]? = some fx)
    (h : ∀ entry ∈ scene.state, isTargetFixture fixtureFilters fx.label entry.1 = false) :
    (applyScene ease m sceneIndex ms fixtureFilters).project.fixtures[k]? = some fx := by
  unfold applyScene
  rw [hscene]
  show (m.project.fixtures.map _)[k]? = some fx
  rw [List.getElem?_map, hfx, Option.map_some']
  rw [applySceneToFixture_no_match ease ms fixtureFilters scene fx h]

def exCMA : ControlMacro :=
  { label := "Dim", currentValue := 0, channels := [1], animation := none }

def exFxA : FixtureInstance :=
  { label := "A", offsetChannels := 0,
    config := { activeMode := { mappings := [], macros := [.Control exCMA] } } }

def exFxB : FixtureInstance :=
  { label := "B", offsetChannels := 8,
    config := { activeMode := { mappings := [], macros := [.Control exCMA] } } }

/-- A scene with entries for both fixture "A" and fixture "B". -/
def exSceneAB : Scene :=
  { label := "Both",
    state := [("A", [("Dim", .ControlValue 100)]), ("B", [("Dim", .ControlValue 100)])] }

def exM6 : Model :=
  { channelsState := [], project := { fixtures := [exFxA, exFxB], scenes := [exSceneAB] },
    applyMacros := false, selectedMacroGroupIndex := 0 }

/-- Fixture "A" as it must look after the filtered recall: its "Dim"
macro set to the scene target 100, everything else untouched. -/
def exCMA100 : ControlMacro :=
  { label := "Dim", currentValue := 100, channels := [1], animation := none }

def exFxA100 : FixtureInstance :=
  { label := "A", offsetChannels := 0,
    config := { activeMode := { mappings := [], macros := [.Control exCMA100] } } }

/-- C6: with fixture_filters = Some(filters), a fixture at any position is
left exactly as it was unless some scene-state key both sits in the
filter list and matches the fixture's label case-insensitively; and
concretely, with filters = ["A"] against a scene holding entries for "A"
and "B", only fixture "A"'s macro changes (fixture "B" keeps current
value 0 even though the scene names it). -/
theorem c6_filter_law :
    (∀ (ease : Rat → Rat) (m : Model) (sceneIndex : Nat) (ms : Option Nat)
       (filters : List String) (k : Nat) (fx : FixtureInstance) (scene : Scene),
       m.project.scenes[sceneIndex]? = some scene →
       m.project.fixtures[k]? = some fx →
       (∀ entry ∈ scene.state,
          (filters.contains entry.1 && eqIgnoreAsciiCase entry.1 fx.label) = false) →
       (applyScene ease m sceneIndex ms (some filters)).project.fixtures[k]? = some fx) ∧
    applyScene id exM6 0 none (some ["A"])
      = { channelsState := [],
          project := { fixtures := [exFxA100, exFxB], scenes := [exSceneAB] },
          applyMacros := true, selectedMacroGroupIndex := 0 } := by
  constructor
  · intro ease m sceneIndex ms filters k fx scene hscene hfx h
    exact applyScene_preserves_fixture ease m sceneIndex ms (some filters) k fx scene
      hscene hfx h
  · rfl

theorem c6_witness :
    (∀ entry ∈ exSceneAB.state,
       ((["A"] : List String).contains entry.1
          && eqIgnoreAsciiCase entry.1 exFxB.label) = false) ∧
    (applyScene id exM6 0 none (some ["A"])).project.fixtures[1]? = some exFxB :=
  ⟨by decide, c6_filter_law.1 id exM6 0 none ["A"] 1 exFxB exSceneAB rfl rfl (by decide)⟩

/-- C8: a fixture whose label matches no key of the recalled scene's
state (case-insensitively) is left exactly as it was by apply_scene —
all its macro current_values and animations included — whatever the
animation duration and filters are. -/
theorem c8_partial_overlay (ease : Rat → Rat) (m : Model) (sceneIndex : Nat)
    (ms : Option Nat) (fixtureFilters : Option (List String)) (k : Nat)
    (fx : FixtureInstance) (scene : Scene)
    (hscene : m.project.scenes[sceneIndex]? = some scene)
    (hfx : m.project.fixtures[k]? = some fx)
    (h : ∀ entry ∈ scene.state, eqIgnoreAsciiCase entry.1 fx.label = false) :
    (applyScene ease m sceneIndex ms fixtureFilters).project.fixtures[k]? = some fx := by
  apply applyScene_preserves_fixture ease m sceneIndex ms fixtureFilters k fx scene
    hscene hfx
  intro entry hmem
  cases fixtureFilters with
  | none => exact h entry hmem
  | some filters => simp [isTargetFixture, h entry hmem]

def exFxC : FixtureInstance :=
  { label := "C", offsetChannels := 16,
    config := { activeMode := { mappings := [], macros := [.Control exCM] } } }

def exM8 : Model :=
  { channelsState := [], project := { fixtures := [exFxA, exFxC], scenes := [exSceneAB] },
    applyMacros := false, selectedMacroGroupIndex := 0 }

theorem c8_witness :
    (∀ entry ∈ exSceneAB.state, eqIgnoreAsciiCase entry.1 exFxC.label = false) ∧
    (applyScene id exM8 0 none none).project.fixtures[1]? = some exFxC :=
  ⟨by decide, c8_partial_overlay id exM8 0 none none 1 exFxC exSceneAB rfl rfl (by decide)⟩

/-! ### C9 — no-animation scene recall is idempotent -/

def pickControl : SceneValue → Option Nat
  | .ControlValue v => some v
  | .ColourValue _ => none

def pickColour : SceneValue → Option RGB
  | .ColourValue c => some c
  | .ControlValue _ => none

/-- The scalar value a no-animation recall leaves on one macro of kind
`pick` after folding a list of scene entries, starting from `v`. -/
def sceneFoldWith {α : Type _} (pick : SceneValue → Option α)
    (fixtureFilters : Option (List String)) (lbl macl : String)
    (entries : List (String × List (String × SceneValue))) (v : α) : α :=
  entries.foldl (fun v entry =>
    if isTargetFixture fixtureFilters lbl entry.1 then
      match entry.2.lookup macl with
      | some sv => (pick sv).getD v
      | none => v
    else v) v

/-- The composite per-macro effect of a no-animation recall. -/
def applyEntriesToMacro (ease : Rat → Rat) (fixtureFilters : Option (List String))
    (lbl : String) (entries : List (String × List (String × SceneValue)))
    (mac : FixtureMacro) : FixtureMacro :=
  entries.foldl (fun mac entry =>
    if isTargetFixture fixtureFilters lbl entry.1 then
      applySceneEntryToMacro ease none entry.2 mac
    else mac) mac

theorem applyEntriesToMacro_control (ease : Rat → Rat)
    (fixtureFilters : Option (List String)) (lbl : String)
    (entries : List (String × List (String × SceneValue))) (cm : ControlMacro) :
    applyEntriesToMacro ease fixtureFilters lbl entries (.Control cm)
      = .Control
          { cm with
            currentValue := sceneFoldWith pickControl fixtureFilters lbl cm.label
              entries cm.currentValue } := by
  induction entries generalizing cm with
  | nil => rfl
  | cons entry rest ih =>
      unfold applyEntriesToMacro sceneFoldWith
      rw [List.foldl_cons, List.foldl_cons]
      by_cases htgt : isTargetFixture fixtureFilters lbl entry.1
      · rw [if_pos htgt, if_pos htgt]
        cases hl : entry.2.lookup cm.label with
        | none =>
            show applyEntriesToMacro ease fixtureFilters lbl rest
                (applySceneEntryToMacro ease none entry.2 (.Control cm)) = _
            simp only [applySceneEntryToMacro, hl]
            exact ih cm
        | some sv =>
            cases sv with
            | ControlValue c =>
                show applyEntriesToMacro ease fixtureFilters lbl rest
                    (applySceneEntryToMacro ease none entry.2 (.Control cm)) = _
                simp only [applySceneEntryToMacro, hl]
                exact ih { cm with currentValue := c }
            | ColourValue c =>
                show applyEntriesToMacro ease fixtureFilters lbl rest
                    (applySceneEntryToMacro ease none entry.2 (.Control cm)) = _
                simp only [applySceneEntryToMacro, hl]
                exact ih cm
      · rw [if_neg htgt, if_neg htgt]
        exact ih cm

theorem applyEntriesToMacro_colour (ease : Rat → Rat)
    (fixtureFilters : Option (List String)) (lbl : String)
    (entries : List (String × List (String × SceneValue))) (cm : ColourMacro) :
    applyEntriesToMacro ease fixtureFilters lbl entries (.Colour cm)
      = .Colour
          { cm with
            currentValue := sceneFoldWith pickColour fixtureFilters lbl cm.label
              entries cm.currentValue } := by
  induction entries generalizing cm with
  | nil => rfl
  | cons entry rest ih =>
      unfold applyEntriesToMacro sceneFoldWith
      rw [List.foldl_cons, List.foldl_cons]
      by_cases htgt : isTargetFixture fixtureFilters lbl entry.1
      · rw [if_pos htgt, if_pos htgt]
        cases hl : entry.2.lookup cm.label with
        | none =>
            show applyEntriesToMacro ease fixtureFilters lbl rest
                (applySceneEntryToMacro ease none entry.2 (.Colour cm)) = _
            simp only [applySceneEntryToMacro, hl]
            exact ih cm
        | some sv =>
            cases sv with
            | ControlValue c =>
                show applyEntriesToMacro ease fixtureFilters lbl rest
                    (applySceneEntryToMacro ease none entry.2 (.Colour cm)) = _
                simp only [applySceneEntryToMacro, hl]
                exact ih cm
            | ColourValue c =>
                show applyEntriesToMacro ease fixtureFilters lbl rest
                    (applySceneEntryToMacro ease none entry.2 (.Colour cm)) = _
                simp only [applySceneEntryToMacro, hl]
                exact ih { cm with currentValue := c }
      · rw [if_neg htgt, if_neg htgt]
        exact ih cm

theorem foldl_const_or_id {α β : Type _} (g : β → α → α)
    (hg : ∀ b, (∀ v w, g b v = g b w) ∨ (∀ v, g b v = v)) :
    ∀ (l : List β) (v w : α),
      l.foldl (fun v b => g b v) v = l.foldl (fun v b => g b v) w ∨
      (l.foldl (fun v b => g b v) v = v ∧ l.foldl (fun v b => g b v) w = w) := by
  intro l
  induction l with
  | nil => intro v w; exact Or.inr ⟨rfl, rfl⟩
  | cons b rest ih =>
      intro v w
      rw [List.foldl_cons, List.foldl_cons]
      cases hg b with
      | inl hconst => exact Or.inl (by rw [hconst v w])
      | inr hid =>
          rw [hid v, hid w]
          exact ih v w

theorem foldl_twice_eq {α β : Type _} (g : β → α → α)
    (hg : ∀ b, (∀ v w, g b v = g b w) ∨ (∀ v, g b v = v)) (l : List β) (v : α) :
    l.foldl (fun v b => g b v) (l.foldl (fun v b => g b v) v)
      = l.foldl (fun v b => g b v) v := by
  cases foldl_const_or_id g hg l (l.foldl (fun v b => g b v) v) v with
  | inl h => exact h
  | inr h => exact h.1

theorem sceneFoldWith_idem {α : Type _} (pick : SceneValue → Option α)
    (fixtureFilters : Option (List String)) (lbl macl : String)
    (entries : List (String × List (String × SceneValue))) (v : α) :
    sceneFoldWith pick fixtureFilters lbl macl entries
        (sceneFoldWith pick fixtureFilters lbl macl entries v)
      = sceneFoldWith pick fixtureFilters lbl macl entries v := by
  apply foldl_twice_eq
  intro entry
  by_cases htgt : isTargetFixture fixtureFilters lbl entry.1
  · cases hl : entry.2.lookup macl with
    | none => exact Or.inr (fun v => by simp [htgt, hl])
    | some sv =>
        cases hp : pick sv with
        | none => exact Or.inr (fun v => by simp [htgt, hl, hp])
        | some c => exact Or.inl (fun v w => by simp [htgt, hl, hp])
  · exact Or.inr (fun v => by simp [htgt])

theorem updFixtureMacros_congr {f1 f2 : List FixtureMacro → List FixtureMacro}
    (fx : FixtureInstance)
    (h : f1 fx.config.activeMode.macros = f2 fx.config.activeMode.macros) :
    updFixtureMacros f1 fx = updFixtureMacros f2 fx := by
  unfold updFixtureMacros
  rw [h]

theorem applyEntriesToMacro_idem (ease : Rat → Rat)
    (fixtureFilters : Option (List String)) (lbl : String)
    (entries : List (String × List (String × SceneValue))) (mac : FixtureMacro) :
    applyEntriesToMacro ease fixtureFilters lbl entries
        (applyEntriesToMacro ease fixtureFilters lbl entries mac)
      = applyEntriesToMacro ease fixtureFilters lbl entries mac := by
  cases mac with
  | Control cm =>
      rw [applyEntriesToMacro_control, applyEntriesToMacro_control]
      simp [sceneFoldWith_idem]
  | Colour cm =>
      rw [applyEntriesToMacro_colour, applyEntriesToMacro_colour]
      simp [sceneFoldWith_idem]

theorem applySceneToFixture_none_eq (ease : Rat → Rat)
    (fixtureFilters : Option (List String)) (scene : Scene) (fx : FixtureInstance) :
    applySceneToFixture ease none fixtureFilters scene fx
      = updFixtureMacros
          (fun ms => ms.map (applyEntriesToMacro ease fixtureFilters fx.label scene.state))
          fx := by
  unfold applySceneToFixture
  generalize scene.state = entries
  induction entries generalizing fx with
  | nil =>
      show updFixtureMacros (fun ms => ms) fx = _
      apply updFixtureMacros_congr fx
      show fx.config.activeMode.macros
          = List.map (applyEntriesToMacro ease fixtureFilters fx.label [])
              fx.config.activeMode.macros
      have e2 : applyEntriesToMacro ease fixtureFilters fx.label []
          = (fun mac => mac) := rfl
      rw [e2, List.map_id']
  | cons entry rest ih =>
      rw [List.foldl_cons]
      by_cases htgt : isTargetFixture fixtureFilters fx.label entry.1
      · rw [if_pos htgt]
        rw [ih (updFixtureMacros (List.map (applySceneEntryToMacro ease none entry.2)) fx)]
        show updFixtureMacros
            (fun ms => (ms.map (applySceneEntryToMacro ease none entry.2)).map
              (applyEntriesToMacro ease fixtureFilters fx.label rest)) fx = _
        apply updFixtureMacros_congr
        rw [List.map_map]
        apply List.map_congr_left
        intro mac _
        show applyEntriesToMacro ease fixtureFilters fx.label rest
            (applySceneEntryToMacro ease none entry.2 mac)
          = applyEntriesToMacro ease fixtureFilters fx.label (entry :: rest) mac
        unfold applyEntriesToMacro
        rw [List.foldl_cons, if_pos htgt]
      · rw [if_neg htgt, ih fx]
        apply updFixtureMacros_congr
        apply List.map_congr_left
        intro mac _
        show applyEntriesToMacro ease fixtureFilters fx.label rest mac
          = applyEntriesToMacro ease fixtureFilters fx.label (entry :: rest) mac
        unfold applyEntriesToMacro
        rw [List.foldl_cons, if_neg htgt]

theorem applySceneToFixture_none_idem (ease : Rat → Rat)
    (fixtureFilters : Option (List String)) (scene : Scene) (fx : FixtureInstance) :
    applySceneToFixture ease none fixtureFilters scene
        (applySceneToFixture ease none fixtureFilters scene fx)
      = applySceneToFixture ease none fixtureFilters scene fx := by
  have e := applySceneToFixture_none_eq ease fixtureFilters scene fx
  have e2 := applySceneToFixture_none_eq ease fixtureFilters scene
    (updFixtureMacros
      (fun ms => ms.map (applyEntriesToMacro ease fixtureFilters fx.label scene.state)) fx)
  rw [e, e2]
  show updFixtureMacros
      (fun ms =>
        (ms.map (applyEntriesToMacro ease fixtureFilters fx.label scene.state)).map
          (applyEntriesToMacro ease fixtureFilters fx.label scene.state)) fx
    = updFixtureMacros
        (fun ms => ms.map (applyEntriesToMacro ease fixtureFilters fx.label scene.state)) fx
  apply updFixtureMacros_congr
  rw [List.map_map]
  apply List.map_congr_left
  intro mac _
  exact applyEntriesToMacro_idem ease fixtureFilters fx.label scene.state mac

/-- One fixture list pass of the found-scene branch of apply_scene. -/
def sceneAppliedProject (ease : Rat → Rat) (fixtureFilters : Option (List String))
    (scene : Scene) (p : Project) : Project :=
  { p with fixtures := p.fixtures.map (applySceneToFixture ease none fixtureFilters scene) }

/-- The Model produced by the found-scene branch of apply_scene with no
animation duration. -/
def sceneAppliedModel (ease : Rat → Rat) (fixtureFilters : Option (List String))
    (scene : Scene) (m : Model) : Model :=
  { m with project := sceneAppliedProject ease fixtureFilters scene m.project,
           applyMacros := true }

theorem sceneAppliedModel_idem (ease : Rat → Rat)
    (fixtureFilters : Option (List String)) (scene : Scene) (m : Model) :
    sceneAppliedModel ease fixtureFilters scene
        (sceneAppliedModel ease fixtureFilters scene m)
      = sceneAppliedModel ease fixtureFilters scene m := by
  unfold sceneAppliedModel sceneAppliedProject
  dsimp only
  rw [List.map_map]
  have hfix : m.project.fixtures.map
        ((applySceneToFixture ease none fixtureFilters scene) ∘
          (applySceneToFixture ease none fixtureFilters scene))
      = m.project.fixtures.map (applySceneToFixture ease none fixtureFilters scene) :=
    List.map_congr_left
      (fun fx _ => applySceneToFixture_none_idem ease fixtureFilters scene fx)
  rw [hfix]

/-- C9: recalling the same scene twice via apply_scene with animation
duration None and no intervening mutation is idempotent — the entire
model state after the second recall (every macro current_value, every
animation slot, every channel and the apply_macros flag, hence the
resolved Universe Buffer) equals the state after the first recall. -/
theorem c9_scene_recall_idempotent (ease : Rat → Rat) (m : Model) (sceneIndex : Nat)
    (fixtureFilters : Option (List String)) :
    applyScene ease (applyScene ease m sceneIndex none fixtureFilters)
        sceneIndex none fixtureFilters
      = applyScene ease m sceneIndex none fixtureFilters := by
  cases h : m.project.scenes[sceneIndex]? with
  | none =>
      have e1 : applyScene ease m sceneIndex none fixtureFilters = m := by
        unfold applyScene; rw [h]
      rw [e1]
      exact e1
  | some scene =>
      have e1 : applyScene ease m sceneIndex none fixtureFilters
          = sceneAppliedModel ease fixtureFilters scene m := by
        unfold applyScene
        rw [h]
        rfl
      have hs : (sceneAppliedModel ease fixtureFilters scene m).project.scenes[sceneIndex]?
          = some scene := h
      have e2 : applyScene ease (sceneAppliedModel ease fixtureFilters scene m)
            sceneIndex none fixtureFilters
          = sceneAppliedModel ease fixtureFilters scene
              (sceneAppliedModel ease fixtureFilters scene m) := by
        unfold applyScene
        rw [hs]
        rfl
      rw [e1, e2]
      exact sceneAppliedModel_idem ease fixtureFilters scene m

/-! ### C10 — apply_home_values resets then writes home values -/

/-- All (universe index, home value) writes `apply_home_values` performs,
fixture by fixture and mapping by mapping, in program order. -/
def homeWrites (fixtures : List FixtureInstance) : List (Nat × Nat) :=
  fixtures.flatMap (fun fx =>
    fx.config.activeMode.mappings.filterMap (fun mp =>
      mp.home.map (fun h => (homeWriteIndex fx mp, h))))

theorem homeFold_inner_eq (fx : FixtureInstance) :
    ∀ (mappings : List Mapping) (st : List Nat),
      mappings.foldl (fun st mp =>
          match mp.home with
          | some h => st.set (homeWriteIndex fx mp) h
          | none => st) st
        = (mappings.filterMap (fun mp =>
            mp.home.map (fun h => (homeWriteIndex fx mp, h)))).foldl
            (fun st p => st.set p.1 p.2) st := by
  intro mappings
  induction mappings with
  | nil => intro st; rfl
  | cons mp rest ih =>
      intro st
      rw [List.foldl_cons, List.filterMap_cons]
      cases hh : mp.home with
      | none => simpa [hh] using ih st
      | some h => simpa [hh] using ih (st.set (homeWriteIndex fx mp) h)

theorem homeFold_outer_eq :
    ∀ (fixtures : List FixtureInstance) (st : List Nat),
      fixtures.foldl (fun st fx =>
          fx.config.activeMode.mappings.foldl (fun st mp =>
            match mp.home with
            | some h => st.set (homeWriteIndex fx mp) h
            | none => st) st) st
        = (homeWrites fixtures).foldl (fun st p => st.set p.1 p.2) st := by
  intro fixtures
  induction fixtures with
  | nil => intro st; rfl
  | cons fx rest ih =>
      intro st
      unfold homeWrites
      rw [List.foldl_cons, List.flatMap_cons, List.foldl_append,
          ← homeFold_inner_eq fx]
      exact ih _

theorem applyHomeValues_channels_eq (m : Model) :
    (applyHomeValues m).channelsState
      = (homeWrites m.project.fixtures).foldl (fun st p => st.set p.1 p.2)
          (List.replicate CHANNELS_PER_UNIVERSE 0) := by
  show m.project.fixtures.foldl _ (List.replicate CHANNELS_PER_UNIVERSE 0) = _
  exact homeFold_outer_eq m.project.fixtures _

theorem setFold_length :
    ∀ (writes : List (Nat × Nat)) (st : List Nat),
      (writes.foldl (fun st p => st.set p.1 p.2) st).length = st.length :=
  fun writes st =>
    foldl_invariant List.length (fun st p => st.set p.1 p.2)
      (fun st p => List.length_set st p.1 p.2) writes st

theorem setFold_getElem?_not_mem :
    ∀ (writes : List (Nat × Nat)) (st : List Nat) (idx : Nat),
      idx ∉ writes.map Prod.fst →
      (writes.foldl (fun st p => st.set p.1 p.2) st)[idx]? = st[idx]? := by
  intro writes
  induction writes with
  | nil => intro st idx h; rfl
  | cons p rest ih =>
      intro st idx h
      have h1 : idx ≠ p.1 := fun e => h (by rw [List.map_cons, e]; exact List.mem_cons_self _ _)
      have h2 : idx ∉ rest.map Prod.fst := fun hm => h (by rw [List.map_cons]; exact List.mem_cons_of_mem _ hm)
      rw [List.foldl_cons, ih _ idx h2, List.getElem?_set_ne (Ne.symm h1)]

theorem setFold_getElem?_mem :
    ∀ (writes : List (Nat × Nat)) (st : List Nat) (i hv : Nat),
      (i, hv) ∈ writes → (writes.map Prod.fst).Nodup → i < st.length →
      (writes.foldl (fun st p => st.set p.1 p.2) st)[i]? = some hv := by
  intro writes
  induction writes with
  | nil => intro st i hv hm; exact absurd hm (List.not_mem_nil _)
  | cons p rest ih =>
      intro st i hv hm hnd hlen
      rw [List.map_cons, List.nodup_cons] at hnd
      rw [List.foldl_cons]
      rcases List.mem_cons.mp hm with heq | hmem
      · cases p with
        | mk pi ph =>
            injection heq with hi hh
            subst hi
            subst hh
            rw [setFold_getElem?_not_mem rest _ i hnd.1]
            simp [List.getElem?_set_self, hlen]
      · exact ih (st.set p.1 p.2) i hv hmem hnd.2 (by rw [List.length_set]; exact hlen)

/-- C10: apply_home_values first resets all channels to 0 and only then
writes home values: under a well-formed configuration (no u16 underflow,
indices inside the universe, distinct home targets) every channel mapped
with home = Some(h) afterwards holds h at index channel+offset-1, every
other in-range channel reads 0, and the result is independent of the
previous channels_state (prior runtime state and apply_defaults seeding
included). -/
theorem c10_home_values_reset_then_write (m : Model)
    (hlow : ∀ fx ∈ m.project.fixtures, ∀ mp ∈ fx.config.activeMode.mappings,
       1 ≤ mp.channel + fx.offsetChannels)
    (hbound : ∀ p ∈ homeWrites m.project.fixtures, p.1 < CHANNELS_PER_UNIVERSE)
    (hnodup : ((homeWrites m.project.fixtures).map Prod.fst).Nodup) :
    (∀ fx ∈ m.project.fixtures, ∀ mp ∈ fx.config.activeMode.mappings, ∀ hv : Nat,
       mp.home = some hv →
       (applyHomeValues m).channelsState[homeWriteIndex fx mp]? = some hv) ∧
    (∀ idx : Nat, idx < CHANNELS_PER_UNIVERSE →
       idx ∉ (homeWrites m.project.fixtures).map Prod.fst →
       (applyHomeValues m).channelsState[idx]? = some 0) ∧
    (∀ m' : Model, m'.project.fixtures = m.project.fixtures →
       (applyHomeValues m').channelsState = (applyHomeValues m).channelsState) := by
  refine ⟨?_, ?_, ?_⟩
  · intro fx hfx mp hmp hv hhome
    have hmem : (homeWriteIndex fx mp, hv) ∈ homeWrites m.project.fixtures := by
      apply List.mem_flatMap.mpr
      refine ⟨fx, hfx, ?_⟩
      apply List.mem_filterMap.mpr
      exact ⟨mp, hmp, by rw [hhome]; rfl⟩
    rw [applyHomeValues_channels_eq]
    apply setFold_getElem?_mem _ _ _ _ hmem hnodup
    rw [List.length_replicate]
    exact hbound _ hmem
  · intro idx hidx hnm
    rw [applyHomeValues_channels_eq, setFold_getElem?_not_mem _ _ _ hnm]
    simp [List.getElem?_replicate, hidx]
  · intro m' hpf
    rw [applyHomeValues_channels_eq, applyHomeValues_channels_eq, hpf]

def exMapDef7 : Mapping := { channel := 1, def_ := some 7, home := none }

def exMapHome9 : Mapping := { channel := 2, def_ := none, home := some 9 }

def exFxHome : FixtureInstance :=
  { label := "H", offsetChannels := 2,
    config := { activeMode := { mappings := [exMapDef7, exMapHome9], macros := [] } } }

/-- Stale runtime state in channels_state plus a fixture with a
default-only mapping: apply_home_values must wipe both to zero. -/
def exM10 : Model :=
  { channelsState := [1, 2, 3], project := { fixtures := [exFx, exFxHome], scenes := [] },
    applyMacros := false, selectedMacroGroupIndex := 0 }

theorem c10_witness :
    (applyHomeValues exM10).channelsState[0]? = some 255 ∧
    (applyHomeValues exM10).channelsState[3]? = some 9 ∧
    (applyHomeValues exM10).channelsState[1]? = some 0 ∧
    (applyHomeValues exM10).channelsState[2]? = some 0 := by
  have t := c10_home_values_reset_then_write exM10 (by decide) (by decide) (by decide)
  exact ⟨t.1 exFx (List.Mem.head _) { channel := 1, def_ := none, home := some 255 }
           (List.Mem.head _) 255 rfl,
         t.1 exFxHome (List.Mem.tail _ (List.Mem.head _)) exMapHome9
           (List.Mem.tail _ (List.Mem.head _)) 9 rfl,
         t.2.1 1 (by decide) (by decide),
         t.2.1 2 (by decide) (by decide)⟩
